import Mathlib

/-
Verification development for the ToolProject heatmap pipeline.

The Python sources embedded here are the six heatmap scripts and their
unified form in `src/heatmap/heatmap_interactive.py`.  Text lines are
embedded as `List Char` (one list per line of the input file), numeric
values as `ℚ`, and fallible operations as `Option`/`Except`.
-/

namespace Heatmap

/-- A grid of measured values: the row-major list-of-rows produced by
`read_data` (`np.array(data)` in the source). -/
abbrev Grid := List (List ℚ)

/-- Whitespace test matching Python `str.strip()` (space, tab, newline,
carriage return, vertical tab, form feed). -/
def isSpaceChar (c : Char) : Bool :=
  c = ' ' || c = '\t' || c = '\n' || c = '\r' || c = '\x0b' || c = '\x0c'

/-- Python `str.strip()` on a line: drop leading and trailing whitespace. -/
def stripChars (cs : List Char) : List Char :=
  ((cs.dropWhile isSpaceChar).reverse.dropWhile isSpaceChar).reverse

/-- Python `str.startswith(pat)` for a literal pattern. -/
def beginsWith : List Char → List Char → Bool
  | _, [] => true
  | [], _ :: _ => false
  | c :: cs, p :: ps => c = p && beginsWith cs ps

/-- Python `str.split(sep)` for a one-character separator (the delimiter in
the configs is the single character "\t"): split on every occurrence of
`sep`, keeping empty fragments. -/
def splitOnChar (sep : Char) : List Char → List (List Char)
  | [] => [[]]
  | c :: cs =>
    match splitOnChar sep cs with
    | [] => [[c]]
    | t :: ts => if c = sep then [] :: t :: ts else (c :: t) :: ts

/-- Accumulator loop reading a run of decimal digits. -/
def digitsToNatAux (acc : ℕ) : List Char → Option ℕ
  | [] => some acc
  | c :: cs => if c.isDigit then digitsToNatAux (10 * acc + (c.toNat - 48)) cs else none

/-- Read a (possibly empty) run of decimal digits as a natural number. -/
def digitsToNat (cs : List Char) : Option ℕ :=
  digitsToNatAux 0 cs

/-- Python `float(tok)` restricted to plain decimal literals
(`-12`, `3.5`, `.5`, `5.`), which covers every token form the grid files
use; other forms fail, as `float` fails on malformed tokens. -/
def parseFloatTok (cs : List Char) : Option ℚ :=
  let signBody : Bool × List Char :=
    match cs with
    | '-' :: rest => (true, rest)
    | '+' :: rest => (false, rest)
    | _ => (false, cs)
  let neg := signBody.1
  let body := signBody.2
  match splitOnChar '.' body with
  | [ip] =>
      if ip.isEmpty then none
      else (digitsToNat ip).map (fun n => if neg then -(n : ℚ) else (n : ℚ))
  | [ip, fp] =>
      if ip.isEmpty && fp.isEmpty then none
      else
        match digitsToNat ip, digitsToNat fp with
        | some n, some f =>
            let v : ℚ := (n : ℚ) + (f : ℚ) / (10 : ℚ) ^ fp.length
            some (if neg then -v else v)
        | _, _ => none
  | _ => none

/-- Line filter of `read_data` (heatmap_interactive.py line 33): keep a
stripped line iff it is nonempty and does not start with `#`, `Original`
or `Columns`. -/
def keepLine (line : List Char) : Bool :=
  !line.isEmpty &&
    !(beginsWith line ['#'] ||
      beginsWith line ['O', 'r', 'i', 'g', 'i', 'n', 'a', 'l'] ||
      beginsWith line ['C', 'o', 'l', 'u', 'm', 'n', 's'])

/-- The lines `read_data` retains: each input line stripped, then filtered
by `keepLine`. -/
def retainedLines (lines : List (List Char)) : List (List Char) :=
  (lines.map stripChars).filter keepLine

/-- Parse every token of a row; the first invalid token aborts (Python
`float` raises on it). -/
def parseTokens : List (List Char) → Option (List ℚ)
  | [] => some []
  | t :: ts =>
    match parseFloatTok t, parseTokens ts with
    | some v, some vs => some (v :: vs)
    | _, _ => none

/-- One line of `read_data` (heatmap_interactive.py line 34):
`[float(x.strip()) for x in line.split(sep) if x.strip()]`. -/
def parseRow (sep : Char) (line : List Char) : Option (List ℚ) :=
  parseTokens (((splitOnChar sep line).filter
    (fun t => !(stripChars t).isEmpty)).map stripChars)

/-- Parse the retained lines in order; the first failing line aborts. -/
def parseRows (sep : Char) : List (List Char) → Option Grid
  | [] => some []
  | l :: ls =>
    match parseRow sep l, parseRows sep ls with
    | some r, some rs => some (r :: rs)
    | _, _ => none

/-- `read_data` of heatmap_interactive.py lines 26-37 (identical in the six
standalone scripts), with the file contents given as its list of lines:
strip and filter lines, parse each retained line, drop rows that parsed to
zero tokens (`if row:`), and return the collected rows.  A failed `float`
call is Python's `ValueError`.  No rectangularity check is performed:
the row list is handed to `np.array` as is. -/
def read_data (sep : Char) (lines : List (List Char)) : Except String Grid :=
  match parseRows sep (retainedLines lines) with
  | none => Except.error "ValueError"
  | some rows => Except.ok (rows.filter (fun r => !r.isEmpty))

/-- The per-row token counts of a load result (`none` when loading failed). -/
def rowLengths : Except String Grid → Option (List ℕ)
  | Except.ok g => some (g.map List.length)
  | Except.error _ => none

/-- Number of rows of a grid (`data.shape[0]`). -/
def gridRows (g : Grid) : ℕ := g.length

/-- Number of columns of a grid (`data.shape[1]` of the rectangular array
`np.array` builds: the common row length, read off the first row). -/
def gridCols (g : Grid) : ℕ := (g.headD []).length

/-- Total cell count (`data.size` of the rectangular array). -/
def gridSize (g : Grid) : ℕ := gridRows g * gridCols g

/-- Index clamping of scipy's `mode='nearest'` boundary handling:
out-of-range indices are replaced by the nearest valid index. -/
def clampIdx (n : ℕ) (i : ℤ) : ℕ :=
  if i < 0 then 0 else min i.toNat (n - 1)

/-- Cell access with `nearest` boundary replication, as used by
`uniform_filter(..., mode='nearest')`. -/
def cellAt (g : Grid) (i j : ℤ) : ℚ :=
  (g.getD (clampIdx (gridRows g) i) []).getD (clampIdx (gridCols g) j) 0

/-- Sum of the `w × w` window that scipy's `uniform_filter` centres at
`(i, j)`: offsets `a - w/2` for `a < w` (so `-1..1` for `w = 3` and
`-3..2` for `w = 6`), with `nearest` replication at the borders. -/
def windowSum (g : Grid) (w : ℕ) (i j : ℕ) : ℚ :=
  ((List.range w).map (fun (a : ℕ) =>
    ((List.range w).map (fun (b : ℕ) =>
      cellAt g ((i : ℤ) + (a : ℤ) - ((w / 2 : ℕ) : ℤ))
               ((j : ℤ) + (b : ℤ) - ((w / 2 : ℕ) : ℤ)))).sum)).sum

/-- `apply_rolling_average(data, window_size)` of heatmap_interactive.py
lines 39-42: `uniform_filter(data, size=window_size, mode='nearest')`,
i.e. each output cell is the mean of the `w × w` window around it with
nearest-value boundary replication.  The separable two-pass scipy
implementation equals this direct two-dimensional mean. -/
def smooth (g : Grid) (w : ℕ) : Grid :=
  (List.range (gridRows g)).map (fun i =>
    (List.range (gridCols g)).map (fun j =>
      windowSum g w i j / ((w : ℚ) * (w : ℚ))))

/-- Region extraction `data[y:y+h, x:x+w]` (heatmap_interactive.py line
151 and heatmap_whole.py line 94): numpy slice semantics for nonnegative
offsets, which clip silently at the grid bounds and never raise. -/
def extract (g : Grid) (x y w h : ℕ) : Grid :=
  ((g.drop y).take h).map (fun row => (row.drop x).take w)

/-- `_get_default_region` of heatmap_interactive.py lines 257-261 (also
heatmap_whole.py lines 86-90): `region_h, region_w = max(3, h // 4),
max(3, w // 4)`; returns `(w - region_w, h - region_h, region_w,
region_h)`.  The offsets are integers because Python subtraction can go
negative on tiny grids. -/
def defaultRegion (rows cols : ℕ) : ℤ × ℤ × ℕ × ℕ :=
  let region_h := max 3 (rows / 4)
  let region_w := max 3 (cols / 4)
  ((cols : ℤ) - (region_w : ℤ), (rows : ℤ) - (region_h : ℤ), region_w, region_h)

/-- `np.min(data)`: minimum over all cells (junk value 0 on the empty
grid, where numpy would raise). -/
def gridMin (g : Grid) : ℚ :=
  match g.flatten with
  | [] => 0
  | x :: xs => xs.foldl min x

/-- `np.max(data)`: maximum over all cells (junk value 0 on the empty
grid, where numpy would raise). -/
def gridMax (g : Grid) : ℚ :=
  match g.flatten with
  | [] => 0
  | x :: xs => xs.foldl max x

/-- Insert into a sorted list (ascending). -/
def insertSorted (x : ℚ) : List ℚ → List ℚ
  | [] => [x]
  | y :: ys => if x ≤ y then x :: y :: ys else y :: insertSorted x ys

/-- Insertion sort, ascending. -/
def sortRat : List ℚ → List ℚ
  | [] => []
  | x :: xs => insertSorted x (sortRat xs)

/-- `np.median(data)`: sort all cells; odd count takes the middle element,
even count averages the two middle elements. -/
def median (g : Grid) : ℚ :=
  let xs := sortRat g.flatten
  let n := xs.length
  if n % 2 = 1 then xs.getD (n / 2) 0
  else (xs.getD (n / 2 - 1) 0 + xs.getD (n / 2) 0) / 2

/-- Text colors used for the per-cell value overlay. -/
inductive TextColor
  | white
  | black
deriving DecidableEq

/-- Per-cell text color of `create_heatmap` (heatmap_interactive.py line
75): `"white" if val > median_val else "black"`. -/
def cellColor (g : Grid) (val : ℚ) : TextColor :=
  if val > median g then TextColor.white else TextColor.black

/-- The cells `np.ndenumerate(data)` yields on the rectangular array:
`((i, j), value)` for every `i < rows`, `j < cols`, row-major. -/
def enumerateCells (g : Grid) : List (ℕ × ℕ × ℚ) :=
  (List.range (gridRows g)).flatMap (fun i =>
    (List.range (gridCols g)).map (fun j => (i, j, (g.getD i []).getD j 0)))

/-- The numeric text overlay drawn by `create_heatmap`
(heatmap_interactive.py lines 70-76): guarded by
`show_values and data.size <= 400`; each drawn cell carries its value and
its median-contrast color. -/
def valueOverlay (g : Grid) (sv : Bool) : List (ℕ × ℕ × ℚ × TextColor) :=
  if sv = true ∧ gridSize g ≤ 400 then
    (enumerateCells g).map (fun p => (p.1, p.2.1, p.2.2, cellColor g p.2.2))
  else []

/-- One rendered panel: the grid it shows, its title, the explicit color
scale handed to `imshow` (`none` = matplotlib auto-scale), the
`show_values` flag and the marked rectangle, mirroring the arguments of
`create_heatmap`. -/
structure Panel where
  grid : Grid
  title : String
  vmin : Option ℚ
  vmax : Option ℚ
  showValues : Bool
  markArea : Option (ℕ × ℕ × ℕ × ℕ)
deriving DecidableEq

/-- Effective color scale of a panel: `imshow(vmin=None, vmax=None)`
falls back to the panel grid's own extrema. -/
def autoScale (p : Panel) : ℚ × ℚ :=
  (p.vmin.getD (gridMin p.grid), p.vmax.getD (gridMax p.grid))

/-- The six panels of `visualize_whole_rolling_same_unit`
(heatmap_interactive.py lines 210-248, identical to
`plot_grouped_heatmaps` of heatmap_whole_rolling_same_unit.py lines
91-129): three full-grid panels on the original grid's scale, three
region panels on the min/max over the region slices of the original and
both smoothed grids. -/
def plot_grouped_heatmaps (data : Grid) (region_coords : ℕ × ℕ × ℕ × ℕ) :
    List Panel :=
  let data_3x3 := smooth data 3
  let data_6x6 := smooth data 6
  let global_min := gridMin data
  let global_max := gridMax data
  let x := region_coords.1
  let y := region_coords.2.1
  let w := region_coords.2.2.1
  let h := region_coords.2.2.2
  let region_data := extract data x y w h
  let region_3x3 := extract data_3x3 x y w h
  let region_6x6 := extract data_6x6 x y w h
  let region_min := min (min (gridMin region_data) (gridMin region_3x3))
                        (gridMin region_6x6)
  let region_max := max (max (gridMax region_data) (gridMax region_3x3))
                        (gridMax region_6x6)
  [ ⟨data, "Original Data", some global_min, some global_max, true,
      some region_coords⟩,
    ⟨data_3x3, "3×3 Rolling Average", some global_min, some global_max, true,
      some region_coords⟩,
    ⟨data_6x6, "6×6 Rolling Average", some global_min, some global_max, true,
      some region_coords⟩,
    ⟨region_data, "Original Region", some region_min, some region_max, true,
      none⟩,
    ⟨region_3x3, "3×3 Region", some region_min, some region_max, true, none⟩,
    ⟨region_6x6, "6×6 Region", some region_min, some region_max, true, none⟩ ]

/-- The single panel of `visualize_single` (heatmap_interactive.py lines
84-96): load the data, render one panel titled "Original Data" with no
explicit scale (auto) and default `show_values=True`; a load failure
aborts before any panel exists. -/
def visualize_single_panels (sep : Char) (lines : List (List Char)) :
    Except String (List Panel) :=
  match read_data sep lines with
  | Except.error e => Except.error e
  | Except.ok data => Except.ok [⟨data, "Original Data", none, none, true, none⟩]

/-- Effect order of every composer (`visualize_single` lines 84-96,
`visualize_whole_rolling_same_unit` lines 250-255, and the other four):
the panels are rendered in order, a raised exception aborts the run, and
`plt.savefig(output_path)` runs only after every panel call returned.
The first component lists the paths written, the second the run's
outcome. -/
def runCompose : List (Except String Unit) → String → List String × Except String Unit
  | [], path => ([path], Except.ok ())
  | Except.ok _ :: rest, path => runCompose rest path
  | Except.error e :: _, _ => ([], Except.error e)

/-- Map commutes with positional default access when the default is a
fixed point of the function. -/
lemma getD_map_fix {α β : Type} (f : α → β) (l : List α) (i : ℕ) (d : α) :
    (l.map f).getD i (f d) = f (l.getD i d) := by
  induction l generalizing i with
  | nil => simp [List.getD]
  | cons x xs ih =>
    cases i with
    | zero => simp
    | succ k => exact ih k

/-- Positional default access after `drop` shifts the index. -/
lemma getD_drop {α : Type} (l : List α) (m i : ℕ) (d : α) :
    (l.drop m).getD i d = l.getD (m + i) d := by
  induction m generalizing l with
  | zero => simp
  | succ n ih =>
    cases l with
    | nil => simp
    | cons x xs =>
      rw [Nat.succ_add]
      exact ih xs

/-- Positional default access inside the taken range is unchanged. -/
lemma getD_take {α : Type} (l : List α) (n i : ℕ) (d : α) (h : i < n) :
    (l.take n).getD i d = l.getD i d := by
  induction l generalizing n i with
  | nil => simp
  | cons x xs ih =>
    cases n with
    | zero => omega
    | succ m =>
      cases i with
      | zero => simp
      | succ k => simpa using ih m k (by omega)

/-- Entry `(i, j)` of an extracted region is entry `(y+i, x+j)` of the
source grid, for indices inside the requested rectangle. -/
lemma extract_getD (g : Grid) (x y w h i j : ℕ) (hi : i < h) (hj : j < w) :
    ((extract g x y w h).getD i []).getD j 0 =
      (g.getD (y + i) []).getD (x + j) 0 := by
  unfold extract
  have h1 : (((g.drop y).take h).map (fun row => (row.drop x).take w)).getD i [] =
      ((((g.drop y).take h).getD i []).drop x).take w := by
    simpa using getD_map_fix (fun row => (row.drop x).take w) ((g.drop y).take h) i []
  rw [h1, getD_take _ _ _ _ hi, getD_drop, getD_take _ _ _ _ hj, getD_drop]

/-- Row lengths after dropping the rows that parsed empty are exactly the
nonzero parsed token counts. -/
lemma map_length_filter_nonempty (rows : Grid) :
    (rows.filter (fun r => !r.isEmpty)).map List.length =
      (rows.map List.length).filter (fun n => n != 0) := by
  induction rows with
  | nil => rfl
  | cons r rs ih =>
    cases r with
    | nil => simp [ih]
    | cons v vs => simp [ih]

/-- C1: the spec says region extraction fails with
`RegionOutOfBoundsError` whenever `x+width > cols`; the code slices with
numpy semantics, which never raise.  On the 2×2 grid `[[1,2],[3,4]]` the
out-of-bounds region `(x=1, y=0, width=5, height=1)` (so `x+width = 6 >
2 = cols`) extracts the clipped sub-grid `[[2]]` instead of failing. -/
theorem C1_cex_extract_never_fails :
    extract [[1, 2], [3, 4]] 1 0 5 1 = [[2]] ∧ 1 + 5 > 2 := by
  constructor
  · rfl
  · decide

/-- C1 (amended): region extraction never fails; it returns the numpy
slice `grid[y:y+h, x:x+w]`, and whenever `x+width ≤ cols` and
`y+height ≤ rows` that slice is exactly the `height × width` sub-grid
whose entry `(i, j)` is the source entry `(y+i, x+j)`. -/
theorem C1_region_extract_in_bounds (g : Grid) (x y w h r c : ℕ)
    (hr : g.length = r) (hc : ∀ row ∈ g, row.length = c)
    (hx : x + w ≤ c) (hy : y + h ≤ r) :
    (extract g x y w h).length = h ∧
    (∀ row ∈ extract g x y w h, row.length = w) ∧
    ∀ i j, i < h → j < w →
      ((extract g x y w h).getD i []).getD j 0 =
        (g.getD (y + i) []).getD (x + j) 0 := by
  refine ⟨?_, ?_, fun i j hi hj => extract_getD g x y w h i j hi hj⟩
  · unfold extract
    simp only [List.length_map, List.length_take, List.length_drop]
    omega
  · intro row hrow
    unfold extract at hrow
    obtain ⟨orig, horig, rfl⟩ := List.mem_map.1 hrow
    have hg : orig ∈ g := List.drop_subset y g (List.take_subset h _ horig)
    simp only [List.length_take, List.length_drop, hc orig hg]
    omega

/-- C1 witness: the in-bounds region `(x=0, y=1, width=2, height=1)` of
the 2×2 grid extracts one row of two values, and its entry `(0,1)` is the
source entry `(1,1)`. -/
theorem C1_region_extract_witness :
    (extract [[1, 2], [3, 4]] 0 1 2 1).length = 1 ∧
    ((extract [[(1 : ℚ), 2], [3, 4]] 0 1 2 1).getD 0 []).getD 1 0 =
      ([[(1 : ℚ), 2], [3, 4]].getD (1 + 0) []).getD (0 + 1) 0 :=
  ⟨(C1_region_extract_in_bounds [[1, 2], [3, 4]] 0 1 2 1 2 2 rfl (by decide)
      (by decide) (by decide)).1,
   (C1_region_extract_in_bounds [[1, 2], [3, 4]] 0 1 2 1 2 2 rfl (by decide)
      (by decide) (by decide)).2.2 0 1 (by decide) (by decide)⟩

/-- C2 counterexample: on an input whose two retained rows parse to 5 and
4 tokens, `read_data` succeeds (returning the ragged row list, token
counts 5 and 4) instead of raising any `MalformedGridError` — no such
error exists in the code. -/
theorem C2_cex_ragged_accepted :
    rowLengths (read_data '\t'
      [['1', '\t', '2', '\t', '3', '\t', '4', '\t', '5'],
       ['1', '\t', '2', '\t', '3', '\t', '4']]) = some [5, 4] := by decide

/-- C2 (amended): the loader performs no rectangularity check and defines
no `MalformedGridError`: whenever every retained line parses, it returns
the rows with exactly their parsed token counts — nothing is padded or
truncated — so ragged input yields a ragged row list (whose fate is then
decided by `np.array`, outside the loader). -/
theorem C2_loader_keeps_token_counts (sep : Char) (lines : List (List Char))
    (rows : Grid) (h : parseRows sep (retainedLines lines) = some rows) :
    rowLengths (read_data sep lines) =
      some ((rows.map List.length).filter (fun n => n != 0)) := by
  unfold read_data rowLengths
  rw [h]
  simp [map_length_filter_nonempty]

/-- C2 witness: the ragged 5-token/4-token input loads to exactly the
token counts `[5, 4]`. -/
theorem C2_loader_keeps_token_counts_witness :
    rowLengths (read_data '\t'
      [['1', '\t', '2', '\t', '3', '\t', '4', '\t', '5'],
       ['1', '\t', '2', '\t', '3', '\t', '4']]) =
      some (([[(1 : ℚ), 2, 3, 4, 5], [1, 2, 3, 4]].map List.length).filter
        (fun n => n != 0)) :=
  C2_loader_keeps_token_counts '\t' _ [[1, 2, 3, 4, 5], [1, 2, 3, 4]] rfl

/-- C3: the default region follows `width = max(3, cols/4)`,
`height = max(3, rows/4)`, `x = cols − width`, `y = rows − height`
(integer division), and in particular a 200-row × 160-column grid yields
`(x=120, y=150, width=40, height=50)` and a 100-row × 80-column grid
yields `(x=60, y=75, width=20, height=25)`. -/
theorem C3_default_region_policy :
    (∀ rows cols : ℕ,
      defaultRegion rows cols =
        ((cols : ℤ) - (max 3 (cols / 4) : ℕ), (rows : ℤ) - (max 3 (rows / 4) : ℕ),
         max 3 (cols / 4), max 3 (rows / 4))) ∧
    defaultRegion 200 160 = (120, 150, 40, 50) ∧
    defaultRegion 100 80 = (60, 75, 20, 25) :=
  ⟨fun _ _ => rfl, by decide, by decide⟩

/-- C9: a composer run either renders every panel and then writes exactly
the one complete output file, or aborts on the first panel failure having
written nothing — no partial output is ever on disk, because
`plt.savefig` runs strictly after all `create_heatmap` calls. -/
theorem C9_no_partial_output (panels : List (Except String Unit)) (path : String) :
    ((∀ p ∈ panels, p = Except.ok ()) →
      runCompose panels path = ([path], Except.ok ())) ∧
    ((∃ p ∈ panels, ∃ e, p = Except.error e) →
      (runCompose panels path).1 = []) := by
  induction panels with
  | nil =>
    constructor
    · intro _
      rfl
    · rintro ⟨q, hq, _⟩
      cases hq
  | cons p rest ih =>
    constructor
    · intro hall
      have hp := hall p (List.mem_cons_self p rest)
      subst hp
      exact ih.1 (fun q hq => hall q (List.mem_cons_of_mem _ hq))
    · rintro ⟨q, hq, e, rfl⟩
      cases p with
      | error e2 => rfl
      | ok u =>
        cases u
        rcases List.mem_cons.1 hq with hq1 | hq2
        · cases hq1
        · exact ih.2 ⟨Except.error e, hq2, e, rfl⟩

/-- C10: on grids with at least 3 rows and 3 columns the default region
is in bounds and flush with the bottom-right corner (`x ≥ 0`, `y ≥ 0`,
`x + width = cols`, `y + height = rows`); on grids with fewer than 3 rows
or columns the corresponding offset is negative, so the default region is
not a valid in-bounds rectangle. -/
theorem C10_default_region_in_bounds (rows cols : ℕ) :
    (3 ≤ rows → 3 ≤ cols →
      0 ≤ (defaultRegion rows cols).1 ∧ 0 ≤ (defaultRegion rows cols).2.1 ∧
      (defaultRegion rows cols).1 + ((defaultRegion rows cols).2.2.1 : ℤ) = (cols : ℤ) ∧
      (defaultRegion rows cols).2.1 + ((defaultRegion rows cols).2.2.2 : ℤ) = (rows : ℤ)) ∧
    ((rows < 3 ∨ cols < 3) →
      (defaultRegion rows cols).1 < 0 ∨ (defaultRegion rows cols).2.1 < 0) := by
  have e1 : (defaultRegion rows cols).1 = (cols : ℤ) - (max 3 (cols / 4) : ℕ) := rfl
  have e2 : (defaultRegion rows cols).2.1 = (rows : ℤ) - (max 3 (rows / 4) : ℕ) := rfl
  have e3 : (defaultRegion rows cols).2.2.1 = max 3 (cols / 4) := rfl
  have e4 : (defaultRegion rows cols).2.2.2 = max 3 (rows / 4) := rfl
  constructor
  · intro hr hc
    have hw : max 3 (cols / 4) ≤ cols := max_le hc (Nat.div_le_self _ _)
    have hh : max 3 (rows / 4) ≤ rows := max_le hr (Nat.div_le_self _ _)
    rw [e1, e2, e3, e4]
    refine ⟨?_, ?_, ?_, ?_⟩ <;> omega
  · intro hsmall
    rw [e1, e2]
    rcases hsmall with hs | hs
    · have h4 : rows / 4 = 0 := Nat.div_eq_of_lt (by omega)
      have hm : max 3 (rows / 4) = 3 := by
        rw [h4]
        exact max_eq_left (Nat.zero_le 3)
      right
      rw [hm]
      omega
    · have h4 : cols / 4 = 0 := Nat.div_eq_of_lt (by omega)
      have hm : max 3 (cols / 4) = 3 := by
        rw [h4]
        exact max_eq_left (Nat.zero_le 3)
      left
      rw [hm]
      omega

/-- C10 witness: the 200×160 grid's default region is in bounds and flush
bottom-right; the 2-row grid's default region has a negative `y`. -/
theorem C10_default_region_in_bounds_witness :
    (0 ≤ (defaultRegion 200 160).1 ∧ 0 ≤ (defaultRegion 200 160).2.1 ∧
      (defaultRegion 200 160).1 + ((defaultRegion 200 160).2.2.1 : ℤ) = ((160 : ℕ) : ℤ) ∧
      (defaultRegion 200 160).2.1 + ((defaultRegion 200 160).2.2.2 : ℤ) = ((200 : ℕ) : ℤ)) ∧
    ((defaultRegion 2 100).1 < 0 ∨ (defaultRegion 2 100).2.1 < 0) :=
  ⟨(C10_default_region_in_bounds 200 160).1 (by decide) (by decide),
   (C10_default_region_in_bounds 2 100).2 (Or.inl (by decide))⟩

/-- Mapping positional default access over the index range of a list
rebuilds the list. -/
lemma map_range_getD {α : Type} (l : List α) (d : α) :
    (List.range l.length).map (fun i => l.getD i d) = l := by
  induction l with
  | nil => rfl
  | cons x xs ih =>
    rw [List.length_cons, List.range_succ_eq_map, List.map_cons, List.map_map]
    simp only [List.getD_cons_zero, Function.comp_def, List.getD_cons_succ]
    rw [ih]

/-- On a nonempty rectangular grid, `gridCols` is the common row length. -/
lemma rect_gridCols {g : Grid} {c : ℕ} (hne : g ≠ [])
    (hc : ∀ row ∈ g, row.length = c) : gridCols g = c := by
  cases g with
  | nil => exact absurd rfl hne
  | cons r rs => simpa [gridCols] using hc r (List.mem_cons_self r rs)

/-- Smoothing preserves the grid dimensions, whatever the window. -/
lemma smooth_shape (g : Grid) (w : ℕ) :
    (smooth g w).length = gridRows g ∧
    ∀ row ∈ smooth g w, row.length = gridCols g := by
  constructor
  · simp [smooth]
  · intro row hrow
    simp only [smooth, List.mem_map] at hrow
    obtain ⟨i, _, rfl⟩ := hrow
    simp

/-- Clamping an in-range index is the identity. -/
lemma clampIdx_of_lt {n i : ℕ} (h : i < n) : clampIdx n (i : ℤ) = i := by
  unfold clampIdx
  rw [if_neg (by omega)]
  simp only [Int.toNat_natCast]
  omega

/-- Boundary-replicated access at in-range indices is plain access. -/
lemma cellAt_of_lt (g : Grid) (i j : ℕ) (hi : i < gridRows g)
    (hj : j < gridCols g) :
    cellAt g (i : ℤ) (j : ℤ) = (g.getD i []).getD j 0 := by
  unfold cellAt
  rw [clampIdx_of_lt hi, clampIdx_of_lt hj]

/-- A window of size 1 contains exactly the centre cell. -/
lemma windowSum_one (g : Grid) (i j : ℕ) :
    windowSum g 1 i j = cellAt g (i : ℤ) (j : ℤ) := by
  unfold windowSum
  rw [show List.range 1 = [0] from rfl]
  simp

/-- A rectangular grid is rebuilt by reading every in-range cell. -/
lemma grid_reconstruct (g : Grid) (hrect : ∀ row ∈ g, row.length = gridCols g) :
    (List.range g.length).map (fun i =>
      (List.range (gridCols g)).map (fun j => (g.getD i []).getD j 0)) = g := by
  conv_rhs => rw [← map_range_getD g []]
  refine List.map_congr_left ?_
  intro i hi
  rw [List.mem_range] at hi
  have hmem : g.getD i [] ∈ g := by
    rw [List.getD_eq_getElem g [] hi]
    exact List.getElem_mem hi
  have hlen : (g.getD i []).length = gridCols g := hrect _ hmem
  rw [← hlen]
  exact map_range_getD _ 0

/-- C5: smoothing with window size 1 is the identity transform on every
(rectangular) grid: each output cell is the average of the single-cell
window holding just the input cell. -/
theorem C5_smoothing_window_one_identity (g : Grid)
    (hrect : ∀ row ∈ g, row.length = gridCols g) :
    smooth g 1 = g := by
  unfold smooth
  simp only [gridRows]
  conv_rhs => rw [← grid_reconstruct g hrect]
  refine List.map_congr_left ?_
  intro i hi
  refine List.map_congr_left ?_
  intro j hj
  rw [List.mem_range] at hi hj
  rw [windowSum_one, cellAt_of_lt g i j hi hj]
  norm_num

/-- C5 witness: window-1 smoothing leaves the 2×2 grid unchanged. -/
theorem C5_smoothing_window_one_identity_witness :
    smooth [[(1 : ℚ), 2], [3, 4]] 1 = [[(1 : ℚ), 2], [3, 4]] :=
  C5_smoothing_window_one_identity [[1, 2], [3, 4]] (by decide)

/-- C4: a well-formed input whose retained lines parse to `r` rows of `c`
tokens each loads to exactly that `r × c` grid, and smoothing at any
(positive) window size preserves the `r × c` dimensions. -/
theorem C4_round_trip_shape (sep : Char) (lines : List (List Char))
    (rows : Grid) (r c : ℕ)
    (hparse : parseRows sep (retainedLines lines) = some rows)
    (hr : rows.length = r) (hc : ∀ row ∈ rows, row.length = c)
    (hcpos : 0 < c) :
    read_data sep lines = Except.ok rows ∧
    rows.length = r ∧ (∀ row ∈ rows, row.length = c) ∧
    ∀ n : ℕ, 0 < n →
      (smooth rows n).length = r ∧ ∀ row ∈ smooth rows n, row.length = c := by
  have hfilter : rows.filter (fun r0 => !r0.isEmpty) = rows := by
    rw [List.filter_eq_self]
    intro row hrow
    have hlen := hc row hrow
    cases row with
    | nil => simp at hlen; omega
    | cons v vs => simp
  refine ⟨?_, hr, hc, ?_⟩
  · unfold read_data
    rw [hparse]
    show Except.ok (rows.filter (fun r0 => !r0.isEmpty)) = Except.ok rows
    rw [hfilter]
  · intro n _
    rcases smooth_shape rows n with ⟨h1, h2⟩
    refine ⟨by rw [h1]; exact hr, ?_⟩
    intro row hrow
    cases rows with
    | nil => simp [smooth, gridRows] at hrow
    | cons r0 rs =>
      rw [h2 row hrow]
      simpa [gridCols] using hc r0 (List.mem_cons_self r0 rs)

/-- C4 witness: a file with one comment line and two tab-separated rows
loads to the 2×2 grid, and 3×3 smoothing keeps 2 rows. -/
theorem C4_round_trip_shape_witness :
    read_data '\t' [['#', ' ', 'h'], ['1', '\t', '2'], ['3', '\t', '4']] =
      Except.ok [[(1 : ℚ), 2], [3, 4]] ∧
    (smooth [[(1 : ℚ), 2], [3, 4]] 3).length = 2 :=
  ⟨(C4_round_trip_shape '\t' [['#', ' ', 'h'], ['1', '\t', '2'], ['3', '\t', '4']]
      [[1, 2], [3, 4]] 2 2 rfl rfl (by decide) (by decide)).1,
   ((C4_round_trip_shape '\t' [['#', ' ', 'h'], ['1', '\t', '2'], ['3', '\t', '4']]
      [[1, 2], [3, 4]] 2 2 rfl rfl (by decide) (by decide)).2.2.2 3 (by decide)).1⟩

/-- C6: in the grouped mode, the three full-grid panels carry the
original grid's (min, max) as their shared scale, and the three region
panels carry the min/max taken over the region sliced from the original
grid and from each of the 3×3- and 6×6-smoothed grids; the panels show
exactly those six grids. -/
theorem C6_grouped_color_scales (data : Grid) (x y w h : ℕ) :
    (∀ p ∈ (plot_grouped_heatmaps data (x, y, w, h)).take 3,
        p.vmin = some (gridMin data) ∧ p.vmax = some (gridMax data)) ∧
    (∀ p ∈ (plot_grouped_heatmaps data (x, y, w, h)).drop 3,
        p.vmin = some (min (min (gridMin (extract data x y w h))
                                (gridMin (extract (smooth data 3) x y w h)))
                           (gridMin (extract (smooth data 6) x y w h))) ∧
        p.vmax = some (max (max (gridMax (extract data x y w h))
                                (gridMax (extract (smooth data 3) x y w h)))
                           (gridMax (extract (smooth data 6) x y w h)))) ∧
    (plot_grouped_heatmaps data (x, y, w, h)).map Panel.grid =
      [data, smooth data 3, smooth data 6,
       extract data x y w h, extract (smooth data 3) x y w h,
       extract (smooth data 6) x y w h] := by
  refine ⟨?_, ?_, ?_⟩ <;> simp [plot_grouped_heatmaps]

/-- C7: with value labels enabled, the per-cell overlay is drawn exactly
when the panel grid has `rows × cols ≤ 400` cells (every cell then
appears in the overlay; above 400 the overlay is empty), and a drawn
value's text color is light (white) exactly when the value exceeds the
grid's median. -/
theorem C7_value_label_policy (g : Grid) (r c : ℕ)
    (hr : g.length = r) (hc : ∀ row ∈ g, row.length = c) :
    (r * c ≤ 400 → ∀ i j, i < r → j < c →
      (i, j, (g.getD i []).getD j 0,
       cellColor g ((g.getD i []).getD j 0)) ∈ valueOverlay g true) ∧
    (400 < r * c → valueOverlay g true = []) ∧
    (∀ v : ℚ, cellColor g v = TextColor.white ↔ median g < v) := by
  have hsize : g ≠ [] → gridSize g = r * c := by
    intro hg
    unfold gridSize gridRows
    rw [hr, rect_gridCols hg hc]
  refine ⟨?_, ?_, ?_⟩
  · intro hle i j hi hj
    have hg : g ≠ [] := by
      intro he
      subst he
      simp at hr
      omega
    unfold valueOverlay
    rw [if_pos ⟨rfl, by rw [hsize hg]; exact hle⟩]
    refine List.mem_map.2 ⟨(i, j, (g.getD i []).getD j 0), ?_, rfl⟩
    unfold enumerateCells
    refine List.mem_flatMap.2 ⟨i, ?_, ?_⟩
    · rw [List.mem_range]
      unfold gridRows
      omega
    · refine List.mem_map.2 ⟨j, ?_, rfl⟩
      rw [List.mem_range, rect_gridCols hg hc]
      omega
  · intro hgt
    have hg : g ≠ [] := by
      intro he
      subst he
      have h0 : r = 0 := by simpa using hr.symm
      rw [h0] at hgt
      simp at hgt
    unfold valueOverlay
    rw [if_neg (fun hcon => by
      have h2 := hcon.2
      rw [hsize hg] at h2
      omega)]
  · intro v
    unfold cellColor
    by_cases hv : median g < v
    · simp [gt_iff_lt, hv]
    · simp [gt_iff_lt, hv]

/-- C7 witness: the 1×1 grid `[[5]]` is small enough, so its only cell
appears in the overlay with its median-contrast color. -/
theorem C7_value_label_policy_witness :
    (0, 0, ([[(5 : ℚ)]].getD 0 []).getD 0 0,
      cellColor [[(5 : ℚ)]] (([[(5 : ℚ)]].getD 0 []).getD 0 0)) ∈
      valueOverlay [[(5 : ℚ)]] true :=
  (C7_value_label_policy [[(5 : ℚ)]] 1 1 rfl (by decide)).1 (by decide) 0 0
    (by decide) (by decide)

/-- C8 counterexample: on the grid `[[1,2],[3,4]]` the median is `2.5`
and the code draws a value in the light color whenever it exceeds the
median, so `3` (which is above `2.5`, not below as the claim says) is
rendered in the light (white) color. -/
theorem C8_cex_value_three_is_light :
    median [[(1 : ℚ), 2], [3, 4]] = 5 / 2 ∧
    cellColor [[(1 : ℚ), 2], [3, 4]] 3 = TextColor.white := by
  have hmed : median [[(1 : ℚ), 2], [3, 4]] = 5 / 2 := by
    norm_num [median, sortRat, insertSorted]
  refine ⟨hmed, ?_⟩
  unfold cellColor
  rw [if_pos (by rw [gt_iff_lt, hmed]; norm_num)]

/-- C8 (amended): in single mode on `[[1,2],[3,4]]` with tab delimiter,
one panel is rendered with auto scale `min=1, max=4`; per-cell text is
shown (4 ≤ 400 cells) with `1` and `2` (not above the median `2.5`) in
the dark color and `3` and `4` (above the median) in the light color. -/
theorem C8_single_mode_scenario :
    visualize_single_panels '\t' [['1', '\t', '2'], ['3', '\t', '4']] =
      Except.ok [⟨[[1, 2], [3, 4]], "Original Data", none, none, true, none⟩] ∧
    autoScale ⟨[[1, 2], [3, 4]], "Original Data", none, none, true, none⟩ =
      (1, 4) ∧
    valueOverlay [[(1 : ℚ), 2], [3, 4]] true =
      [(0, 0, 1, TextColor.black), (0, 1, 2, TextColor.black),
       (1, 0, 3, TextColor.white), (1, 1, 4, TextColor.white)] ∧
    median [[(1 : ℚ), 2], [3, 4]] = 5 / 2 := by
  have hmed : median [[(1 : ℚ), 2], [3, 4]] = 5 / 2 := by
    norm_num [median, sortRat, insertSorted]
  refine ⟨rfl, ?_, ?_, hmed⟩
  · simp only [autoScale, Option.getD]
    norm_num [gridMin, gridMax, min_def, max_def]
  · unfold valueOverlay
    rw [if_pos ⟨rfl, by norm_num [gridSize, gridRows, gridCols]⟩]
    unfold enumerateCells gridRows gridCols
    norm_num [cellColor, hmed, List.range_succ]

/-- C9 witness: a run whose only panel fails writes nothing; a run whose
only panel succeeds writes exactly the one output file. -/
theorem C9_no_partial_output_witness :
    (runCompose [Except.error "render failed"] "out.png").1 = [] ∧
    runCompose [Except.ok ()] "out.png" = (["out.png"], Except.ok ()) :=
  ⟨(C9_no_partial_output [Except.error "render failed"] "out.png").2
      ⟨Except.error "render failed", List.mem_cons_self _ _, "render failed", rfl⟩,
   (C9_no_partial_output [Except.ok ()] "out.png").1
      (by intro p hp; simpa using List.mem_singleton.1 hp)⟩

end Heatmap
